import Mathlib

/-!
# Verification of the axios-interceptor-plus request pipeline

Shallow embedding of the request-execution pipeline of the
`axios-interceptor-plus` library: retry policy (`src/utils/retry.ts`),
circuit breaker (`src/utils/circuitBreaker.ts`), cache manager
(`src/utils/cache.ts`), auth handler (`src/utils/auth.ts`), token manager
(`src/utils/tokenManager.ts`) and request manager
(`src/utils/requestManager.ts`), together with theorems checking the
library's specification against the code.

Modelling conventions: JavaScript numbers used as timestamps and durations
are modelled as `Int` (milliseconds), retry delays as `Rat` (the delay
formula multiplies by 0.1), counters as `Nat`.  JavaScript `Map`s are
modelled as association lists with `Map.set`/`Map.delete` semantics.
Promises awaited to completion are modelled by explicit state threading;
a result that may be a rejection is an `Except`.
-/

namespace AxiosIP

/-! ## Retry policy — `RetryHandler` (src/utils/retry.ts) -/

/-- An axios error as consumed by `RetryHandler.shouldRetry`: the optional
`error.code` string and the response status (`none` models a missing
`error.response`, i.e. no response was received at all). -/
structure RetryErr where
  code : Option String
  status : Option Int
  deriving DecidableEq, Repr

/-- Default branch of `RetryHandler.shouldRetry` (no custom
`retryCondition`): retry on the timeout codes `ECONNABORTED`/`ETIMEDOUT`;
with a response present, retry exactly when `status >= 500 || status ===
408 || status === 429`; with no response (network error), retry. -/
def shouldRetryDefault (e : RetryErr) : Bool :=
  if e.code == some "ECONNABORTED" || e.code == some "ETIMEDOUT" then
    true
  else
    match e.status with
    | some status => decide (500 ≤ status) || status == 408 || status == 429
    | none => true

/-- `RetryHandler.shouldRetry`: a configured `retryCondition` replaces the
default classification entirely. -/
def shouldRetry (retryCondition : Option (RetryErr → Bool)) (e : RetryErr) : Bool :=
  match retryCondition with
  | some f => f e
  | none => shouldRetryDefault e

/-- The retry decision taken inside the `for` loop of
`RetryHandler.executeWithRetry` after the attempt with index `attempt`
failed with `e`: the loop rethrows when `attempt === maxRetries` or
`shouldRetry` is false, and retries otherwise.  (The loop only reaches
attempt indices `0 ≤ attempt ≤ maxRetries`.) -/
def retryDecision (maxRetries : Nat) (retryCondition : Option (RetryErr → Bool))
    (e : RetryErr) (attempt : Nat) : Bool :=
  !(attempt == maxRetries) && shouldRetry retryCondition e

/-- The loop of `RetryHandler.executeWithRetry`, over an abstract request
function threading a state `σ` (the surrounding handlers' mutable state
and instrumentation).  The first argument is the number of retries still
allowed (`maxRetries - attempt`); the second is the attempt index. -/
def retryLoop (requestFn : Nat → σ → σ × Except RetryErr ρ)
    (retryCondition : Option (RetryErr → Bool)) :
    Nat → Nat → σ → σ × Except RetryErr ρ
  | 0, attempt, s =>
    match requestFn attempt s with
    | (s', .ok v) => (s', .ok v)
    | (s', .error e) => (s', .error e)
  | remaining + 1, attempt, s =>
    match requestFn attempt s with
    | (s', .ok v) => (s', .ok v)
    | (s', .error e) =>
      if shouldRetry retryCondition e then
        retryLoop requestFn retryCondition remaining (attempt + 1) s'
      else
        (s', .error e)

/-- `RetryHandler.executeWithRetry`: when retry is disabled the request
function is invoked once; otherwise the retry loop runs with attempt
indices `0..maxRetries`. -/
def executeWithRetry (enabled : Bool) (maxRetries : Nat)
    (retryCondition : Option (RetryErr → Bool))
    (requestFn : Nat → σ → σ × Except RetryErr ρ) (s : σ) :
    σ × Except RetryErr ρ :=
  if enabled then retryLoop requestFn retryCondition maxRetries 0 s
  else requestFn 0 s

/-- `RetryHandler.calculateDelay` with no custom `retryDelayFunction`,
parameterised by the value `rand ∈ [0, 1)` drawn by `Math.random()`:
exponential backoff with 10% jitter, capped at 30000 ms. -/
def calculateDelay (retryDelay : ℚ) (rand : ℚ) (attempt : Nat) : ℚ :=
  let exponentialDelay := retryDelay * 2 ^ attempt
  let jitter := rand * (1 / 10) * exponentialDelay
  min (exponentialDelay + jitter) 30000

/-- The retryable-status set exactly as the spec words it:
`{408, 429} ∪ [500, 599]`. -/
def specRetryStatus (s : Int) : Bool :=
  s == 408 || s == 429 || (decide (500 ≤ s) && decide (s ≤ 599))

/-! ## Circuit breaker — `CircuitBreaker` (src/utils/circuitBreaker.ts) -/

/-- `CircuitState` of the breaker. -/
inductive CircuitState where
  | closed
  | open
  | halfOpen
  deriving DecidableEq, Repr

/-- An error fed to `CircuitBreaker.onFailure` (only its identity matters to
the optional `errorFilter`). -/
structure CBError where
  code : Option String
  status : Option Int
  deriving DecidableEq, Repr

/-- `CircuitBreakerConfig`.  `timeout` is the open-state timeout before a
half-open probe is allowed; `resetTimeout` schedules the failure-count
reset after an open transition. -/
structure CBConfig where
  enabled : Bool
  failureThreshold : Nat
  successThreshold : Nat
  timeout : Int
  resetTimeout : Int
  errorFilter : Option (CBError → Bool)

/-- Mutable fields of a `CircuitBreaker`.  `resetTimerAt` models the
scheduled `setTimeout` that clears `failureCount` (`none` = no timer
pending). -/
structure CBState where
  state : CircuitState
  failureCount : Nat
  successCount : Nat
  lastFailureTime : Option Int
  lastSuccessTime : Option Int
  nextAttemptTime : Option Int
  totalRequests : Nat
  totalFailures : Nat
  totalSuccesses : Nat
  failureHistory : List Int
  resetTimerAt : Option Int
  deriving DecidableEq, Repr

/-- The initial breaker state (field initialisers of the class). -/
def CBState.initial : CBState :=
  { state := .closed, failureCount := 0, successCount := 0,
    lastFailureTime := none, lastSuccessTime := none, nextAttemptTime := none,
    totalRequests := 0, totalFailures := 0, totalSuccesses := 0,
    failureHistory := [], resetTimerAt := none }

/-- Whether an error counts as a failure: `onFailure` returns early when an
`errorFilter` is configured and rejects the error. -/
def countsAsFailure (cfg : CBConfig) (e : CBError) : Bool :=
  match cfg.errorFilter with
  | some f => f e
  | none => true

/-- `CircuitBreaker.canExecute` at wall-clock time `now`.  It mutates the
state in the open case — the returned pair is (new state, admitted?).
The guard `this.nextAttemptTime && Date.now() >= this.nextAttemptTime`
is falsy when `nextAttemptTime` is `undefined` *or `0`* (JS truthiness),
hence the `t ≠ 0` conjunct. -/
def canExecute (cfg : CBConfig) (now : Int) (s : CBState) : CBState × Bool :=
  if !cfg.enabled then (s, true)
  else
    match s.state with
    | .closed => (s, true)
    | .open =>
      match s.nextAttemptTime with
      | some t =>
        if t ≠ 0 ∧ now ≥ t then
          ({ s with state := .halfOpen, successCount := 0 }, true)
        else (s, false)
      | none => (s, false)
    | .halfOpen => (s, true)

/-- `CircuitBreaker.open` (private): transition to Open, set
`nextAttemptTime = now + timeout`, and (re)schedule the failure-count
reset timer for `now + resetTimeout`. -/
def CBState.openCircuit (cfg : CBConfig) (now : Int) (s : CBState) : CBState :=
  { s with state := .open, nextAttemptTime := some (now + cfg.timeout),
           resetTimerAt := some (now + cfg.resetTimeout) }

/-- `CircuitBreaker.close` (private): transition to Closed, reset both
counters, clear `nextAttemptTime` and the reset timer. -/
def CBState.closeCircuit (s : CBState) : CBState :=
  { s with state := .closed, failureCount := 0, successCount := 0,
           nextAttemptTime := none, resetTimerAt := none }

/-- `CircuitBreaker.onSuccess` at time `now`. -/
def onSuccess (cfg : CBConfig) (now : Int) (s : CBState) : CBState :=
  let s := { s with totalSuccesses := s.totalSuccesses + 1,
                    lastSuccessTime := some now }
  match s.state with
  | .halfOpen =>
    let s := { s with successCount := s.successCount + 1 }
    if s.successCount ≥ cfg.successThreshold then s.closeCircuit else s
  | .closed => { s with failureCount := 0 }
  | .open => s

/-- `CircuitBreaker.onFailure` at time `now`. -/
def onFailure (cfg : CBConfig) (now : Int) (e : CBError) (s : CBState) : CBState :=
  if !countsAsFailure cfg e then s
  else
    let s := { s with totalFailures := s.totalFailures + 1,
                      lastFailureTime := some now,
                      failureCount := s.failureCount + 1,
                      failureHistory := s.failureHistory ++ [now] }
    match s.state with
    | .closed =>
      if s.failureCount ≥ cfg.failureThreshold then s.openCircuit cfg now else s
    | .halfOpen => s.openCircuit cfg now
    | .open => s

/-- The scheduled reset timer firing (`setTimeout` body in `open`):
clears `failureCount`. -/
def fireResetTimer (s : CBState) : CBState :=
  { s with failureCount := 0, resetTimerAt := none }

/-- A sequence of recorded failures, oldest first. -/
def foldFailures (cfg : CBConfig) (l : List (Int × CBError)) (s : CBState) : CBState :=
  l.foldl (fun s p => onFailure cfg p.1 p.2 s) s

/-- A sequence of recorded successes at the given times, oldest first. -/
def foldSuccesses (cfg : CBConfig) (l : List Int) (s : CBState) : CBState :=
  l.foldl (fun s t => onSuccess cfg t s) s

/-! ## Cache — `CacheManager` (src/utils/cache.ts)

JavaScript `Map`s are association lists; `Map.set` updates in place
preserving insertion order, `Map.delete` removes the (unique) entry with
the given key.  `localStorage` is a string key-value store under keys
`cache_<key>`; JSON (de)serialisation of an entry is modelled as the
identity.  The model assumes a browser environment (`window` defined), so
the `localStorage`/`indexedDB` branches are live. -/

/-- `Map.get` — the first (unique) binding for `k`. -/
def mapFind [BEq κ] (m : List (κ × α)) (k : κ) : Option α :=
  match m with
  | [] => none
  | q :: m' => if q.1 == k then some q.2 else mapFind m' k

/-- `Map.set` — update in place, else append. -/
def mapSet [BEq κ] (m : List (κ × α)) (k : κ) (v : α) : List (κ × α) :=
  match m with
  | [] => [(k, v)]
  | q :: m' => if q.1 == k then (k, v) :: m' else q :: mapSet m' k v

/-- `Map.delete` — remove the first binding for `k`. -/
def mapDelete [BEq κ] (m : List (κ × α)) (k : κ) : List (κ × α) :=
  match m with
  | [] => []
  | q :: m' => if q.1 == k then m' else q :: mapDelete m' k

/-- `CacheStorage` backends. -/
inductive CacheStorage where
  | memory
  | localStorage
  | indexedDB
  deriving DecidableEq, Repr

/-- An `AxiosResponse` as far as the cache inspects it: status, payload and
the two validator headers. -/
structure AxResponse where
  status : Int
  body : String
  etag : Option String
  lastModified : Option String
  deriving DecidableEq, Repr

/-- `CacheEntry`. -/
structure CacheEntry where
  key : String
  data : AxResponse
  timestamp : Int
  ttl : Int
  etag : Option String
  lastModified : Option String
  deriving DecidableEq, Repr

/-- `CacheConfig`. -/
structure CacheConfig where
  enabled : Bool
  storage : CacheStorage
  ttl : Int
  maxSize : Nat
  shouldCache : Option (AxResponse → Bool)

/-- The stores a `CacheManager` can reach: its own `memoryCache` map plus
the browser's `localStorage` (`kvStore`) and the `axios-cache` indexedDB
object store (`idb`). -/
structure CacheState where
  memoryCache : List (String × CacheEntry)
  kvStore : List (String × CacheEntry)
  idb : List (String × CacheEntry)
  deriving DecidableEq, Repr

/-- The empty cache world. -/
def CacheState.empty : CacheState := { memoryCache := [], kvStore := [], idb := [] }

/-- `CacheManager.getEntry` (private): backend dispatch for reads. -/
def getEntry (cfg : CacheConfig) (key : String) (s : CacheState) : Option CacheEntry :=
  match cfg.storage with
  | .memory => mapFind s.memoryCache key
  | .localStorage => mapFind s.kvStore ("cache_" ++ key)
  | .indexedDB => mapFind s.idb key

/-- `CacheManager.setEntry` (private): backend dispatch for writes. -/
def setEntry (cfg : CacheConfig) (key : String) (entry : CacheEntry) (s : CacheState) :
    CacheState :=
  match cfg.storage with
  | .memory => { s with memoryCache := mapSet s.memoryCache key entry }
  | .localStorage => { s with kvStore := mapSet s.kvStore ("cache_" ++ key) entry }
  | .indexedDB => { s with idb := mapSet s.idb key entry }

/-- `CacheManager.delete`: backend dispatch for removal. -/
def cacheDelete (cfg : CacheConfig) (key : String) (s : CacheState) : CacheState :=
  match cfg.storage with
  | .memory => { s with memoryCache := mapDelete s.memoryCache key }
  | .localStorage => { s with kvStore := mapDelete s.kvStore ("cache_" ++ key) }
  | .indexedDB => { s with idb := mapDelete s.idb key }

/-- `CacheManager.isExpired`: `Date.now() - entry.timestamp > entry.ttl`. -/
def isExpired (now : Int) (entry : CacheEntry) : Bool :=
  decide (now - entry.timestamp > entry.ttl)

/-- `CacheManager.get` at time `now`: lazy expiry deletion on read. -/
def cacheGet (cfg : CacheConfig) (now : Int) (key : String) (s : CacheState) :
    CacheState × Option AxResponse :=
  if !cfg.enabled then (s, none)
  else
    match getEntry cfg key s with
    | none => (s, none)
    | some entry =>
      if isExpired now entry then (cacheDelete cfg key s, none)
      else (s, some entry.data)

/-- `CacheManager.shouldCache` (private): custom predicate, default 2xx. -/
def shouldCacheFn (cfg : CacheConfig) (resp : AxResponse) : Bool :=
  match cfg.shouldCache with
  | some f => f resp
  | none => decide (200 ≤ resp.status) && decide (resp.status < 300)

/-- The comparator of `enforceMaxSize`'s sort: ascending creation
timestamp. -/
def tsLE (a b : String × CacheEntry) : Prop :=
  a.2.timestamp ≤ b.2.timestamp

instance : DecidableRel tsLE := fun a b =>
  inferInstanceAs (Decidable (a.2.timestamp ≤ b.2.timestamp))

instance : IsTotal (String × CacheEntry) tsLE :=
  ⟨fun a b => le_total a.2.timestamp b.2.timestamp⟩

instance : IsTrans (String × CacheEntry) tsLE :=
  ⟨fun _ _ _ h h' => le_trans h h'⟩

/-- `CacheManager.enforceMaxSize` (private): when the *in-memory* map
exceeds `maxSize`, sort its entries by creation timestamp (stable sort,
modelled by insertion sort) and delete the oldest surplus keys.  Note it
reads `this.memoryCache` regardless of the configured backend. -/
def enforceMaxSize (cfg : CacheConfig) (s : CacheState) : CacheState :=
  if s.memoryCache.length > cfg.maxSize then
    let sorted := List.insertionSort tsLE s.memoryCache
    let toRemove := sorted.take (s.memoryCache.length - cfg.maxSize)
    { s with memoryCache := toRemove.foldl (fun m p => mapDelete m p.1) s.memoryCache }
  else s

/-- `CacheManager.set` at time `now`. -/
def cacheSet (cfg : CacheConfig) (now : Int) (key : String) (resp : AxResponse)
    (s : CacheState) : CacheState :=
  if !cfg.enabled || !shouldCacheFn cfg resp then s
  else
    let entry : CacheEntry :=
      { key := key, data := resp, timestamp := now, ttl := cfg.ttl,
        etag := resp.etag, lastModified := resp.lastModified }
    enforceMaxSize cfg (setEntry cfg key entry s)

/-! ## Request descriptors (AxiosRequestConfig as the pipeline inspects it) -/

/-- The parts of an `AxiosRequestConfig` the pipeline reads: method, url,
the JSON serialisations of `params` and `data` (`none` = field absent,
which `getRequestKey` serialises as the empty object), and headers. -/
structure ReqConfig where
  method : Option String
  url : Option String
  params : Option String
  data : Option String
  headers : List (String × String)
  deriving DecidableEq, Repr

/-! ## Auth — `AuthHandler` (src/utils/auth.ts)

Callbacks (`onTokenExpired`, `onUnauthorized`, refresh hooks) are external
effects; their presence is a config flag and their invocations are counted
in the world state.  `await`ed promise results (token lookup, the refresh
call) enter as explicit `Except` oracles: `.error` models a rejected
promise / thrown error. -/

/-- `AuthConfig` as the handler branches on it. -/
structure AuthConfig where
  enabled : Bool
  tokenKey : String
  tokenPrefix : String
  refreshEnabled : Bool
  hasOnTokenExpired : Bool
  hasOnUnauthorized : Bool
  deriving DecidableEq, Repr

/-- The `AuthHandler`'s mutable state plus the token storage it reaches
through `getToken`/`setToken`/`removeToken` (custom hooks or
`localStorage[tokenKey]`, unified as one stored value).  `refreshPromise`
holds the id of the pending refresh future; `refreshCalls` counts
`performTokenRefresh` invocations (refresh-endpoint calls). -/
structure AuthWorld where
  storedToken : Option String
  isRefreshing : Bool
  refreshPromise : Option Nat
  refreshCalls : Nat
  expiredEvents : Nat
  forbiddenEvents : Nat
  deriving DecidableEq, Repr

/-- JS string truthiness: `null`/`undefined` and `""` are falsy. -/
def jsTruthyStr : Option String → Bool
  | none => false
  | some s => s ≠ ""

/-- `AuthHandler.addAuthHeader`: given the awaited outcome of
`this.getToken()` (`.error` = the lookup threw, caught by the
`try`/`catch` with only a `console.warn`), returns the config, with an
`Authorization: <tokenPrefix> <token>` header merged in when a truthy
token was found and auth is enabled.  No path throws or drops the
request. -/
def addAuthHeader (cfg : AuthConfig) (tokenLookup : Except String (Option String))
    (rc : ReqConfig) : ReqConfig :=
  if !cfg.enabled then rc
  else
    match tokenLookup with
    | .error _ => rc
    | .ok t =>
      if jsTruthyStr t then
        { rc with headers :=
            mapSet rc.headers "Authorization" (cfg.tokenPrefix ++ " " ++ t.getD "") }
      else rc

/-- The token-expiration fallback at the end of
`AuthHandler.handleUnauthorized`: `onTokenExpired` when configured, else
`removeToken`. -/
def runExpiredHandling (cfg : AuthConfig) (w : AuthWorld) : AuthWorld :=
  if cfg.hasOnTokenExpired then { w with expiredEvents := w.expiredEvents + 1 }
  else { w with storedToken := none }

/-- What the private `refreshToken()` does synchronously when entered. -/
inductive RefreshDecision where
  /-- `isRefreshing && refreshPromise` held: the caller is handed the
  already-pending promise `fid` (no new refresh call). -/
  | joined (fid : Nat)
  /-- a fresh refresh was started as future `fid`. -/
  | started (fid : Nat)
  deriving DecidableEq, Repr

/-- The synchronous prefix of `AuthHandler.refreshToken` (up to the `await`
of `refreshPromise`). -/
def refreshTokenCall (w : AuthWorld) : AuthWorld × RefreshDecision :=
  match w.refreshPromise with
  | some fid =>
    if w.isRefreshing then (w, .joined fid)
    else
      ({ w with isRefreshing := true, refreshPromise := some w.refreshCalls,
                refreshCalls := w.refreshCalls + 1 }, .started w.refreshCalls)
  | none =>
    ({ w with isRefreshing := true, refreshPromise := some w.refreshCalls,
              refreshCalls := w.refreshCalls + 1 }, .started w.refreshCalls)

/-- The `finally` block of `AuthHandler.refreshToken`: the guard flag and
the pending promise are cleared on *every* exit path, whether the refresh
resolved or threw. -/
def refreshSettle (w : AuthWorld) (_outcome : Except Unit (Option String)) : AuthWorld :=
  { w with isRefreshing := false, refreshPromise := none }

/-- The continuation of `AuthHandler.handleUnauthorized` after its
`await this.refreshToken()` settles with `outcome`: a truthy new token is
persisted via `setToken` and the method returns; `null` or a thrown
refresh falls through to the token-expiration handling. -/
def handleUnauthorizedResume (cfg : AuthConfig) (outcome : Except Unit (Option String))
    (w : AuthWorld) : AuthWorld :=
  let w := refreshSettle w outcome
  match outcome with
  | .ok t => if jsTruthyStr t then { w with storedToken := t } else runExpiredHandling cfg w
  | .error _ => runExpiredHandling cfg w

/-- `AuthHandler.handleUnauthorized` run to completion for the single
owner of the refresh, with the refresh call's result supplied as
`outcome`. -/
def handleUnauthorizedFull (cfg : AuthConfig) (outcome : Except Unit (Option String))
    (w : AuthWorld) : AuthWorld :=
  if cfg.refreshEnabled && !w.isRefreshing then
    let (w', _) := refreshTokenCall w
    handleUnauthorizedResume cfg outcome w'
  else runExpiredHandling cfg w

/-- `AuthHandler.handleForbidden` (private). -/
def handleForbidden (cfg : AuthConfig) (w : AuthWorld) : AuthWorld :=
  if cfg.hasOnUnauthorized then { w with forbiddenEvents := w.forbiddenEvents + 1 }
  else w

/-- `AuthHandler.handleAuthError`: dispatch on the response status; the
error object itself is returned unchanged (the function only has side
effects on the world). -/
def handleAuthError (cfg : AuthConfig) (outcome : Except Unit (Option String))
    (e : RetryErr) (w : AuthWorld) : AuthWorld :=
  if !cfg.enabled then w
  else
    match e.status with
    | none => w
    | some status =>
      if status == 401 then handleUnauthorizedFull cfg outcome w
      else if status == 403 then handleForbidden cfg w
      else w

/-- How one concurrent 401 trigger enters `handleUnauthorized`. -/
inductive TriggerPath where
  /-- the trigger started the refresh (future `fid`) and suspended on it. -/
  | refreshStarted (fid : Nat)
  /-- the trigger was handed the already-pending refresh future `fid`. -/
  | joinedPending (fid : Nat)
  /-- the trigger skipped refresh (guard `!isRefreshing` failed) and ran
  the token-expiration handling instead. -/
  | expiredPath
  deriving DecidableEq, Repr

/-- The synchronous prefix of `AuthHandler.handleUnauthorized` as executed
by one arriving 401 trigger: the refresh branch is taken only when
`config.refreshToken?.enabled && !this.isRefreshing`. -/
def handleUnauthorizedEnter (cfg : AuthConfig) (w : AuthWorld) : AuthWorld × TriggerPath :=
  if cfg.refreshEnabled && !w.isRefreshing then
    match refreshTokenCall w with
    | (w', .joined fid) => (w', .joinedPending fid)
    | (w', .started fid) => (w', .refreshStarted fid)
  else (runExpiredHandling cfg w, .expiredPath)

/-- `n` 401 triggers arriving back-to-back while the first refresh (if
any) is still pending: each runs its synchronous prefix in turn (the
single-threaded event loop interleaving). -/
def runConcurrent401s (cfg : AuthConfig) : Nat → AuthWorld → AuthWorld × List TriggerPath
  | 0, w => (w, [])
  | n + 1, w =>
    let (w', p) := handleUnauthorizedEnter cfg w
    let (w'', ps) := runConcurrent401s cfg n w'
    (w'', p :: ps)

/-! ## Token manager — `TokenManager` (src/utils/tokenManager.ts) -/

/-- `TokenConfig` (a token record). -/
structure TokenConfig where
  accessToken : String
  refreshToken : Option String
  apiKey : Option String
  expiresAt : Option Int
  tokenType : Option String
  deriving DecidableEq, Repr

/-- The `TokenManager`'s mutable fields used by header attachment. -/
structure TMState where
  tokens : List (String × TokenConfig)
  primaryToken : String
  fallbackTokens : List String
  usageCounts : List (String × Nat)
  errorCounts : List (String × Nat)
  deriving DecidableEq, Repr

/-- `TokenManager.isTokenValid` at time `now`: absent expiry is always
valid; otherwise `Date.now() < expiresAt`. -/
def isTokenValid (now : Int) (t : TokenConfig) : Bool :=
  match t.expiresAt with
  | none => true
  | some e => decide (now < e)

/-- `TokenManager.getToken`: defaulting the name to the primary token. -/
def tmGetToken (tm : TMState) (name : Option String) : Option TokenConfig :=
  mapFind tm.tokens (name.getD tm.primaryToken)

/-- `TokenManager.incrementUsage` (private). -/
def incrementUsage (tm : TMState) (name : String) : TMState :=
  { tm with usageCounts :=
      mapSet tm.usageCounts name ((mapFind tm.usageCounts name).getD 0 + 1) }

/-- The fallback scan inside `TokenManager.getValidToken`. -/
def scanFallbacks (now : Int) (tm : TMState) : List String → TMState × Option TokenConfig
  | [] => (tm, none)
  | name :: rest =>
    match tmGetToken tm (some name) with
    | some t =>
      if isTokenValid now t then (incrementUsage tm name, some t)
      else scanFallbacks now tm rest
    | none => scanFallbacks now tm rest

/-- `TokenManager.getValidToken` at time `now`: the primary record when
valid, else the first valid fallback, incrementing that record's usage
count; `none` when no record qualifies. -/
def getValidToken (now : Int) (tm : TMState) : TMState × Option TokenConfig :=
  match tmGetToken tm (some tm.primaryToken) with
  | some primary =>
    if isTokenValid now primary then (incrementUsage tm tm.primaryToken, some primary)
    else scanFallbacks now tm tm.fallbackTokens
  | none => scanFallbacks now tm tm.fallbackTokens

/-- `TokenManager.buildAuthHeader` (private): `Authorization` when the
access token is truthy, `X-API-Key` when an API key is carried. -/
def buildAuthHeader (t : TokenConfig) : List (String × String) :=
  (if t.accessToken ≠ "" then
      [("Authorization", (t.tokenType.getD "Bearer") ++ " " ++ t.accessToken)]
    else []) ++
  (if jsTruthyStr t.apiKey then [("X-API-Key", t.apiKey.getD "")] else [])

/-- `TokenManager.addAuthHeader`: no valid record leaves the config
untouched; otherwise the built auth headers are spread over the existing
headers.  Total — never throws, never rejects the request. -/
def tmAddAuthHeader (now : Int) (tm : TMState) (rc : ReqConfig) : TMState × ReqConfig :=
  match getValidToken now tm with
  | (tm', none) => (tm', rc)
  | (tm', some t) =>
    (tm', { rc with headers := (buildAuthHeader t).foldl (fun h p => mapSet h p.1 p.2) rc.headers })

/-! ## Request manager — `RequestManager` (src/utils/requestManager.ts) -/

/-- `RequestManagerConfig`. -/
structure RMConfig where
  enabled : Bool
  deduplication : Bool
  cancellation : Bool
  maxConcurrentRequests : Nat
  requestTimeout : Int
  deduplicationWindow : Int

/-- `PendingRequest` (the promise it owns is identified by `id`). -/
structure RMPending where
  id : Nat
  config : ReqConfig
  timestamp : Int
  deriving DecidableEq, Repr

/-- A `requestHistory` entry. -/
structure RMHistoryEntry where
  id : Nat
  startTime : Int
  endTime : Option Int
  duration : Option Int
  status : String
  deriving DecidableEq, Repr

/-- `RequestStats`. -/
structure RMStats where
  totalRequests : Nat
  activeRequests : Nat
  completedRequests : Nat
  cancelledRequests : Nat
  deduplicatedRequests : Nat
  averageResponseTime : ℚ
  errorRate : ℚ
  deriving DecidableEq, Repr

/-- The `RequestManager`'s mutable state.  Request ids (`req_<ts>_<rand>`
strings in the source) are modelled as the naturals handed out by
`nextId`; `transportCalls` counts invocations of the wrapped `requestFn`
(the transport). -/
structure RMState where
  pendingRequests : List (Nat × RMPending)
  deduplicationMap : List (String × Nat)
  requestHistory : List RMHistoryEntry
  stats : RMStats
  nextId : Nat
  transportCalls : Nat
  deriving DecidableEq, Repr

/-- The pristine manager. -/
def RMState.initial : RMState :=
  { pendingRequests := [], deduplicationMap := [], requestHistory := [],
    stats := { totalRequests := 0, activeRequests := 0, completedRequests := 0,
               cancelledRequests := 0, deduplicatedRequests := 0,
               averageResponseTime := 0, errorRate := 0 },
    nextId := 0, transportCalls := 0 }

/-- `RequestManager.getRequestKey`:
`"<method>:<url>:<JSON params>:<JSON data>"` with `GET`/`""` defaults and
`{}` for absent params/body (the `params`/`data` fields already hold the
JSON serialisations). -/
def getRequestKey (c : ReqConfig) : String :=
  (c.method.getD "GET") ++ ":" ++ (c.url.getD "") ++ ":" ++
    (c.params.getD "\x7b\x7d") ++ ":" ++ (c.data.getD "\x7b\x7d")

/-- What a call to `RequestManager.executeRequest` did. -/
inductive ExecOutcome where
  /-- manager disabled: `requestFn` invoked directly, nothing tracked. -/
  | passthrough
  /-- deduplicated: the caller was handed in-flight request `id`'s promise
  and the transport was *not* invoked again. -/
  | joined (id : Nat)
  /-- admitted: a new pending request `id` was registered and the
  transport invoked. -/
  | started (id : Nat)
  /-- the concurrency ceiling was hit: the call throws. -/
  | capacityError
  deriving DecidableEq, Repr

/-- `RequestManager.executeRequest` at time `now` (synchronous part: admission,
dedup, registration and the kick-off of the transport call). -/
def executeRequest (cfg : RMConfig) (now : Int) (c : ReqConfig) (s : RMState) :
    RMState × ExecOutcome :=
  if !cfg.enabled then ({ s with transportCalls := s.transportCalls + 1 }, .passthrough)
  else
    let key := getRequestKey c
    match (if cfg.deduplication then mapFind s.deduplicationMap key else none) with
    | some id =>
      ({ s with stats := { s.stats with
            deduplicatedRequests := s.stats.deduplicatedRequests + 1 } }, .joined id)
    | none =>
      if s.pendingRequests.length ≥ cfg.maxConcurrentRequests then (s, .capacityError)
      else
        let id := s.nextId
        let pending : RMPending := { id := id, config := c, timestamp := now }
        ({ s with
            pendingRequests := mapSet s.pendingRequests id pending,
            deduplicationMap :=
              if cfg.deduplication then mapSet s.deduplicationMap key id
              else s.deduplicationMap,
            requestHistory := s.requestHistory ++
              [{ id := id, startTime := now, endTime := none, duration := none,
                 status := "pending" }],
            stats := { s.stats with
                totalRequests := s.stats.totalRequests + 1,
                activeRequests := s.stats.activeRequests + 1 },
            nextId := s.nextId + 1,
            transportCalls := s.transportCalls + 1 }, .started id)

/-- `updateAverageResponseTime` (private). -/
def updateAverageResponseTime (st : RMStats) (duration : Int) : RMStats :=
  let totalCompleted := st.completedRequests + st.cancelledRequests
  if totalCompleted > 0 then
    { st with averageResponseTime :=
        (st.averageResponseTime * ((totalCompleted : ℚ) - 1) + (duration : ℚ)) /
          (totalCompleted : ℚ) }
  else st

/-- Update of one history entry on settlement. -/
def settleHistory (hist : List RMHistoryEntry) (id : Nat) (now : Int) (status : String) :
    List RMHistoryEntry :=
  hist.map fun h =>
    if h.id == id then
      { h with endTime := some now, duration := some (now - h.startTime), status := status }
    else h

/-- `RequestManager.handleRequestSuccess` (private): update stats and
history, drop the request from both maps, and resolve its promise.  The
returned `Option Nat` is the id of the future that got resolved (`none`
when the id was unknown and the handler returned early). -/
def handleRequestSuccess (now : Int) (id : Nat) (s : RMState) : RMState × Option Nat :=
  match mapFind s.pendingRequests id with
  | none => (s, none)
  | some req =>
    let duration := now - req.timestamp
    let st := { s.stats with
        activeRequests := s.stats.activeRequests - 1,
        completedRequests := s.stats.completedRequests + 1 }
    let st := updateAverageResponseTime st duration
    ({ s with
        stats := st,
        requestHistory := settleHistory s.requestHistory id now "completed",
        pendingRequests := mapDelete s.pendingRequests id,
        deduplicationMap := mapDelete s.deduplicationMap (getRequestKey req.config) },
      some id)

/-- `updateErrorRate` (private). -/
def updateErrorRate (st : RMStats) (hist : List RMHistoryEntry) : RMStats :=
  let totalRequests := st.completedRequests + st.cancelledRequests
  if totalRequests > 0 then
    let errorCount := (hist.filter (fun h => h.status == "error")).length
    { st with errorRate := (errorCount : ℚ) / (totalRequests : ℚ) }
  else st

/-- `RequestManager.handleRequestError` (private). -/
def handleRequestError (now : Int) (id : Nat) (s : RMState) : RMState × Option Nat :=
  match mapFind s.pendingRequests id with
  | none => (s, none)
  | some req =>
    let duration := now - req.timestamp
    let st := { s.stats with
        activeRequests := s.stats.activeRequests - 1,
        completedRequests := s.stats.completedRequests + 1 }
    let st := updateAverageResponseTime st duration
    let hist := settleHistory s.requestHistory id now "error"
    let st := updateErrorRate st hist
    ({ s with
        stats := st,
        requestHistory := hist,
        pendingRequests := mapDelete s.pendingRequests id,
        deduplicationMap := mapDelete s.deduplicationMap (getRequestKey req.config) },
      some id)

/-! ## The service pipeline around one request (ServiceFactory /
AxiosInterceptor glue)

`ServiceFactory.executeRequest` wraps the axios call in
`RetryHandler.executeWithRetry`.  Each axios call runs the response
interceptors: on an error, `AuthHandler.handleAuthError` (which may
refresh and persist a token but returns the error) followed by
`ErrorHandler.handleError`, which always ends in `Promise.reject(error)`
(or the configured transform) — the original request is never re-issued
by either interceptor. -/

/-- One axios call as seen through the interceptors: the transport is an
oracle from (attempt index, currently stored token) to a response or an
error — calling it with the token models the `Authorization` header the
request interceptor attached from the stored token.  On error, the error
interceptor runs `handleAuthError` and then rejects with the same
error. -/
def interceptedRequestFn (transport : Nat → Option String → Except RetryErr AxResponse)
    (authCfg : AuthConfig) (refreshOutcome : Except Unit (Option String)) :
    Nat → AuthWorld × Nat → (AuthWorld × Nat) × Except RetryErr AxResponse :=
  fun attempt s =>
    let (w, calls) := s
    match transport attempt w.storedToken with
    | .ok resp => ((w, calls + 1), .ok resp)
    | .error e => ((handleAuthError authCfg refreshOutcome e w, calls + 1), .error e)

/-- `ServiceFactory.executeRequest`: the intercepted axios call under
`executeWithRetry`.  The pair's `Nat` component counts transport
invocations. -/
def serviceExecuteRequest (transport : Nat → Option String → Except RetryErr AxResponse)
    (authCfg : AuthConfig) (refreshOutcome : Except Unit (Option String))
    (retryEnabled : Bool) (maxRetries : Nat)
    (retryCondition : Option (RetryErr → Bool)) (w : AuthWorld) :
    (AuthWorld × Nat) × Except RetryErr AxResponse :=
  executeWithRetry retryEnabled maxRetries retryCondition
    (interceptedRequestFn transport authCfg refreshOutcome) (w, 0)

/-! ## Theorems -/

/-! ### C7 — retry decision -/

/-- The default classification, spelt out as a predicate. -/
lemma shouldRetryDefault_iff (e : RetryErr) :
    shouldRetryDefault e = true ↔
      (e.code = some "ECONNABORTED" ∨ e.code = some "ETIMEDOUT" ∨ e.status = none ∨
        ∃ s, e.status = some s ∧ (s = 408 ∨ s = 429 ∨ 500 ≤ s)) := by
  rcases e with ⟨code, status⟩
  rcases status with _ | s
  · have hL : shouldRetryDefault ⟨code, none⟩ = true := by
      unfold shouldRetryDefault
      split <;> rfl
    rw [hL]
    simp only [true_iff]
    tauto
  · by_cases hc : (code == some "ECONNABORTED" || code == some "ETIMEDOUT") = true
    · have hL : shouldRetryDefault ⟨code, some s⟩ = true := by
        unfold shouldRetryDefault
        rw [if_pos hc]
      rw [hL]
      simp only [Bool.or_eq_true, beq_iff_eq] at hc
      simp only [true_iff]
      tauto
    · have hL : shouldRetryDefault ⟨code, some s⟩ =
          (decide (500 ≤ s) || s == 408 || s == 429) := by
        unfold shouldRetryDefault
        rw [if_neg hc]
      rw [hL]
      simp only [Bool.or_eq_true, beq_iff_eq, not_or] at hc
      constructor
      · intro h
        simp only [Bool.or_eq_true, beq_iff_eq, decide_eq_true_eq] at h
        exact Or.inr (Or.inr (Or.inr ⟨s, rfl, by tauto⟩))
      · rintro (h | h | h | ⟨s', hs', h⟩)
        · exact absurd h hc.1
        · exact absurd h hc.2
        · exact absurd h (Option.some_ne_none s)
        · cases hs'
          simp only [Bool.or_eq_true, beq_iff_eq, decide_eq_true_eq]
          tauto

/-- C7 counterexample: with no custom predicate, an error carrying a
response with status 600 — outside `{408, 429} ∪ [500, 599]` and not a
timeout/network error — is nevertheless retried by the code (the code
tests `status >= 500` with no upper bound), so the claimed
characterisation is false at status 600. -/
theorem retry_status600_counterexample :
    retryDecision 3 none { code := none, status := some 600 } 0 = true ∧
    specRetryStatus 600 = false := by
  constructor <;> rfl

/-- C7 (amended): within the reachable attempt range, the code retries iff
`attempt < maxRetries` and (the custom predicate holds when supplied,
otherwise the error is a timeout/network error or the status is 408, 429
or `≥ 500` — with no 599 upper bound). -/
theorem retryDecision_characterization (maxRetries attempt : Nat)
    (cond : Option (RetryErr → Bool)) (e : RetryErr) (h : attempt ≤ maxRetries) :
    retryDecision maxRetries cond e attempt = true ↔
      (attempt < maxRetries ∧
        ((∃ f, cond = some f ∧ f e = true) ∨
         (cond = none ∧
           (e.code = some "ECONNABORTED" ∨ e.code = some "ETIMEDOUT" ∨
            e.status = none ∨
            ∃ s, e.status = some s ∧ (s = 408 ∨ s = 429 ∨ 500 ≤ s))))) := by
  have hlt : (!(attempt == maxRetries)) = true ↔ attempt < maxRetries := by
    simp only [Bool.not_eq_true', beq_eq_false_iff_ne, ne_eq]
    omega
  unfold retryDecision shouldRetry
  rw [Bool.and_eq_true, hlt]
  cases cond with
  | some f =>
    constructor
    · rintro ⟨h1, h2⟩
      exact ⟨h1, Or.inl ⟨f, rfl, h2⟩⟩
    · rintro ⟨h1, (⟨f', hf', h2⟩ | ⟨hnone, _⟩)⟩
      · cases hf'
        exact ⟨h1, h2⟩
      · cases hnone
  | none =>
    rw [shouldRetryDefault_iff]
    constructor
    · rintro ⟨h1, h2⟩
      exact ⟨h1, Or.inr ⟨rfl, h2⟩⟩
    · rintro ⟨h1, (⟨f', hf', _⟩ | ⟨_, h2⟩)⟩
      · cases hf'
      · exact ⟨h1, h2⟩

/-- Witness for C7's amended theorem: status 599 is retried on attempt 0
of 3 (and, directly, status 404 is not). -/
theorem retryDecision_characterization_witness :
    retryDecision 3 none { code := none, status := some 599 } 0 = true ∧
    retryDecision 3 none { code := none, status := some 404 } 0 = false := by
  constructor
  · exact (retryDecision_characterization 3 0 none { code := none, status := some 599 }
      (by norm_num)).mpr
      ⟨by norm_num, Or.inr ⟨rfl, Or.inr (Or.inr (Or.inr ⟨599, rfl, by norm_num⟩))⟩⟩
  · rfl

/-! ### C8 — retry delay -/

/-- C8: with no custom delay function the computed delay is exactly
`min(baseDelay·2^n + jitter, 30000)` with `jitter = rand·0.1·baseDelay·2^n
∈ [0, 0.1·baseDelay·2^n)`, and for `baseDelay = 1000` the delay lies
between `min(2^n·1000, 30000)` and `min(2^n·1000·1.1, 30000)`. -/
theorem calculateDelay_spec (b r : ℚ) (n : Nat) (hb : 0 < b) (h0 : 0 ≤ r) (h1 : r < 1) :
    calculateDelay b r n = min (b * 2 ^ n + r * (1 / 10) * (b * 2 ^ n)) 30000 ∧
    0 ≤ r * (1 / 10) * (b * 2 ^ n) ∧
    r * (1 / 10) * (b * 2 ^ n) < (1 / 10) * (b * 2 ^ n) ∧
    min (1000 * 2 ^ n) 30000 ≤ calculateDelay 1000 r n ∧
    calculateDelay 1000 r n ≤ min (1000 * 2 ^ n * (11 / 10)) 30000 := by
  have hexp : (0 : ℚ) < b * 2 ^ n := by positivity
  have hexpK : (0 : ℚ) < 1000 * 2 ^ n := by positivity
  have hjK : 0 ≤ r * (1 / 10) * (1000 * 2 ^ n) := by
    apply mul_nonneg (mul_nonneg h0 (by norm_num)) hexpK.le
  have hjKlt : r * (1 / 10) * (1000 * 2 ^ n) < (1 / 10) * (1000 * 2 ^ n) := by
    nlinarith [mul_pos (show (0 : ℚ) < 1 - r by linarith) hexpK]
  have hK : calculateDelay 1000 r n =
      min (1000 * 2 ^ n + r * (1 / 10) * (1000 * 2 ^ n)) 30000 := rfl
  refine ⟨rfl, ?_, ?_, ?_, ?_⟩
  · exact mul_nonneg (mul_nonneg h0 (by norm_num)) hexp.le
  · nlinarith [mul_pos (show (0 : ℚ) < 1 - r by linarith) hexp]
  · rw [hK]
    exact min_le_min (by linarith) le_rfl
  · rw [hK]
    exact min_le_min (by nlinarith) le_rfl

/-- Witness for C8 at `baseDelay = 1000`, `rand = 1/2`, attempt 2. -/
theorem calculateDelay_spec_witness :
    calculateDelay 1000 (1 / 2) 2 ≤ min (1000 * 2 ^ 2 * (11 / 10)) 30000 :=
  (calculateDelay_spec 1000 (1 / 2) 2 (by norm_num) (by norm_num) (by norm_num)).2.2.2.2

/-! ### C2, C3 — circuit breaker -/

/-- The time of the last failure in a nonempty failure sequence. -/
def lastTime : List (Int × CBError) → Int
  | [] => 0
  | [p] => p.1
  | _ :: q :: rest => lastTime (q :: rest)

lemma onFailure_closed_step (cfg : CBConfig) (now : Int) (e : CBError) (s : CBState)
    (hc : countsAsFailure cfg e = true) (hs : s.state = .closed)
    (hlt : s.failureCount + 1 < cfg.failureThreshold) :
    onFailure cfg now e s =
      { s with totalFailures := s.totalFailures + 1, lastFailureTime := some now,
               failureCount := s.failureCount + 1,
               failureHistory := s.failureHistory ++ [now] } := by
  have hcond : ¬ (s.failureCount + 1 ≥ cfg.failureThreshold) := by omega
  rcases s with ⟨st, fc, sc, lft, lst, nat, tr, tf, ts, fh, rt⟩
  subst hs
  simp only at hcond
  simp [onFailure, hc, hcond]

lemma onFailure_closed_open (cfg : CBConfig) (now : Int) (e : CBError) (s : CBState)
    (hc : countsAsFailure cfg e = true) (hs : s.state = .closed)
    (hge : cfg.failureThreshold ≤ s.failureCount + 1) :
    onFailure cfg now e s =
      { s with totalFailures := s.totalFailures + 1, lastFailureTime := some now,
               failureCount := s.failureCount + 1,
               failureHistory := s.failureHistory ++ [now],
               state := .open, nextAttemptTime := some (now + cfg.timeout),
               resetTimerAt := some (now + cfg.resetTimeout) } := by
  have hcond : s.failureCount + 1 ≥ cfg.failureThreshold := by omega
  rcases s with ⟨st, fc, sc, lft, lst, nat, tr, tf, ts, fh, rt⟩
  subst hs
  simp only at hcond
  simp [onFailure, CBState.openCircuit, hc, hcond]

lemma foldFailures_opens (cfg : CBConfig) :
    ∀ (l : List (Int × CBError)) (s : CBState),
      (∀ p ∈ l, countsAsFailure cfg p.2 = true) → s.state = .closed →
      s.failureCount + l.length = cfg.failureThreshold → l ≠ [] →
      (foldFailures cfg l s).state = .open ∧
      (foldFailures cfg l s).nextAttemptTime = some (lastTime l + cfg.timeout)
  | [], _, _, _, _, hne => absurd rfl hne
  | [p], s, hc, hs, hcount, _ => by
    have h1 : onFailure cfg p.1 p.2 s =
        { s with totalFailures := s.totalFailures + 1, lastFailureTime := some p.1,
                 failureCount := s.failureCount + 1,
                 failureHistory := s.failureHistory ++ [p.1],
                 state := .open, nextAttemptTime := some (p.1 + cfg.timeout),
                 resetTimerAt := some (p.1 + cfg.resetTimeout) } :=
      onFailure_closed_open cfg p.1 p.2 s (hc p (List.mem_singleton_self p)) hs
        (by simp only [List.length_singleton] at hcount ; omega)
    have h2 : foldFailures cfg [p] s = onFailure cfg p.1 p.2 s := rfl
    rw [h2, h1]
    exact ⟨rfl, rfl⟩
  | p :: q :: rest, s, hc, hs, hcount, _ => by
    have hstep : onFailure cfg p.1 p.2 s =
        { s with totalFailures := s.totalFailures + 1, lastFailureTime := some p.1,
                 failureCount := s.failureCount + 1,
                 failureHistory := s.failureHistory ++ [p.1] } :=
      onFailure_closed_step cfg p.1 p.2 s (hc p (by simp)) hs
        (by simp only [List.length_cons] at hcount ; omega)
    have hfold : foldFailures cfg (p :: q :: rest) s =
        foldFailures cfg (q :: rest) (onFailure cfg p.1 p.2 s) := rfl
    have ih := foldFailures_opens cfg (q :: rest) (onFailure cfg p.1 p.2 s)
      (fun x hx => hc x (List.mem_cons_of_mem p hx))
      (by rw [hstep] ; exact hs)
      (by rw [hstep]
          simp only [List.length_cons] at hcount ⊢
          omega)
      (by simp)
    rw [hfold]
    exact ⟨ih.1, by rw [ih.2] ; rfl⟩

lemma canExecute_open_rejects (cfg : CBConfig) (now : Int) (s : CBState) (T : Int)
    (hen : cfg.enabled = true) (hs : s.state = .open)
    (hn : s.nextAttemptTime = some T) (hnow : now < T) :
    canExecute cfg now s = (s, false) := by
  rcases s with ⟨st, fc, sc, lft, lst, nat, tr, tf, ts, fh, rt⟩
  simp only [CBState.mk.injEq] at hs hn
  subst hs
  subst hn
  simp only [canExecute, hen, Bool.not_true, Bool.false_eq_true, if_false]
  rw [if_neg (by omega)]

/-- C2: starting from a Closed breaker with a clean failure count,
`failureThreshold` consecutive counted failures (no intervening success)
drive the state to Open with `nextAttemptTime = lastFailureTime +
openTimeout`, and every `canExecute` call strictly before that instant is
rejected without changing the state. -/
theorem closed_failures_open_and_reject (cfg : CBConfig) (l : List (Int × CBError))
    (s : CBState) (hen : cfg.enabled = true)
    (hc : ∀ p ∈ l, countsAsFailure cfg p.2 = true)
    (hs : s.state = .closed) (hz : s.failureCount = 0)
    (hlen : l.length = cfg.failureThreshold) (hpos : 1 ≤ cfg.failureThreshold) :
    (foldFailures cfg l s).state = .open ∧
    (foldFailures cfg l s).nextAttemptTime = some (lastTime l + cfg.timeout) ∧
    ∀ now, now < lastTime l + cfg.timeout →
      canExecute cfg now (foldFailures cfg l s) = (foldFailures cfg l s, false) := by
  have hne : l ≠ [] := by
    intro h
    rw [h] at hlen
    simp at hlen
    omega
  have h := foldFailures_opens cfg l s hc hs (by omega) hne
  exact ⟨h.1, h.2, fun now hnow =>
    canExecute_open_rejects cfg now _ _ hen h.1 h.2 hnow⟩

lemma canExecute_open_admits (cfg : CBConfig) (now : Int) (s : CBState) (T : Int)
    (hen : cfg.enabled = true) (hs : s.state = .open)
    (hn : s.nextAttemptTime = some T) (hT : T ≠ 0) (hnow : T ≤ now) :
    canExecute cfg now s = ({ s with state := .halfOpen, successCount := 0 }, true) := by
  rcases s with ⟨st, fc, sc, lft, lst, nat, tr, tf, ts, fh, rt⟩
  simp only [CBState.mk.injEq] at hs hn
  subst hs
  subst hn
  simp only [canExecute, hen, Bool.not_true, Bool.false_eq_true, if_false]
  rw [if_pos ⟨hT, hnow⟩]

lemma canExecute_halfOpen_admits (cfg : CBConfig) (now : Int) (s : CBState)
    (hs : s.state = .halfOpen) :
    canExecute cfg now s = (s, true) := by
  rcases s with ⟨st, fc, sc, lft, lst, nat, tr, tf, ts, fh, rt⟩
  simp only [CBState.mk.injEq] at hs
  subst hs
  simp [canExecute]

lemma onSuccess_halfOpen_step (cfg : CBConfig) (now : Int) (s : CBState)
    (hs : s.state = .halfOpen) (hlt : s.successCount + 1 < cfg.successThreshold) :
    onSuccess cfg now s =
      { s with totalSuccesses := s.totalSuccesses + 1, lastSuccessTime := some now,
               successCount := s.successCount + 1 } := by
  have hcond : ¬ (s.successCount + 1 ≥ cfg.successThreshold) := by omega
  rcases s with ⟨st, fc, sc, lft, lst, nat, tr, tf, ts, fh, rt⟩
  subst hs
  simp only at hcond
  simp [onSuccess, hcond]

lemma onSuccess_halfOpen_close (cfg : CBConfig) (now : Int) (s : CBState)
    (hs : s.state = .halfOpen) (hge : cfg.successThreshold ≤ s.successCount + 1) :
    onSuccess cfg now s =
      { s with totalSuccesses := s.totalSuccesses + 1, lastSuccessTime := some now,
               state := .closed, failureCount := 0, successCount := 0,
               nextAttemptTime := none, resetTimerAt := none } := by
  have hcond : s.successCount + 1 ≥ cfg.successThreshold := by omega
  rcases s with ⟨st, fc, sc, lft, lst, nat, tr, tf, ts, fh, rt⟩
  subst hs
  simp only at hcond
  simp [onSuccess, CBState.closeCircuit, hcond]

lemma foldSuccesses_closes (cfg : CBConfig) :
    ∀ (ts : List Int) (s : CBState), s.state = .halfOpen →
      s.successCount + ts.length = cfg.successThreshold → ts ≠ [] →
      (foldSuccesses cfg ts s).state = .closed ∧
      (foldSuccesses cfg ts s).failureCount = 0 ∧
      (foldSuccesses cfg ts s).successCount = 0 ∧
      (foldSuccesses cfg ts s).nextAttemptTime = none
  | [], _, _, _, hne => absurd rfl hne
  | [t], s, hs, hcount, _ => by
    have h1 : foldSuccesses cfg [t] s = onSuccess cfg t s := rfl
    rw [h1, onSuccess_halfOpen_close cfg t s hs
      (by simp only [List.length_singleton] at hcount ; omega)]
    exact ⟨rfl, rfl, rfl, rfl⟩
  | t :: u :: rest, s, hs, hcount, _ => by
    have hstep : onSuccess cfg t s =
        { s with totalSuccesses := s.totalSuccesses + 1, lastSuccessTime := some t,
                 successCount := s.successCount + 1 } :=
      onSuccess_halfOpen_step cfg t s hs
        (by simp only [List.length_cons] at hcount ; omega)
    have hfold : foldSuccesses cfg (t :: u :: rest) s =
        foldSuccesses cfg (u :: rest) (onSuccess cfg t s) := rfl
    rw [hfold]
    exact foldSuccesses_closes cfg (u :: rest) (onSuccess cfg t s)
      (by rw [hstep] ; exact hs)
      (by rw [hstep]
          simp only [List.length_cons] at hcount ⊢
          omega)
      (by simp)

/-- C3: an Open breaker whose `nextAttemptTime` has passed admits the next
`canExecute` call, transitioning to HalfOpen with `successCount = 0`;
that is the only transition — further `canExecute` calls on the HalfOpen
state admit without changing anything — and `successThreshold`
consecutive recorded successes then close the breaker with both counters
reset to 0 and `nextAttemptTime` cleared. -/
theorem open_to_halfOpen_to_closed (cfg : CBConfig) (s : CBState) (T now : Int)
    (ts : List Int) (hen : cfg.enabled = true) (hs : s.state = .open)
    (hn : s.nextAttemptTime = some T) (hT : T ≠ 0) (hnow : T ≤ now)
    (hlen : ts.length = cfg.successThreshold) (hpos : 1 ≤ cfg.successThreshold) :
    canExecute cfg now s = ({ s with state := .halfOpen, successCount := 0 }, true) ∧
    (∀ now', canExecute cfg now' { s with state := .halfOpen, successCount := 0 } =
      ({ s with state := .halfOpen, successCount := 0 }, true)) ∧
    (foldSuccesses cfg ts { s with state := .halfOpen, successCount := 0 }).state = .closed ∧
    (foldSuccesses cfg ts { s with state := .halfOpen, successCount := 0 }).failureCount = 0 ∧
    (foldSuccesses cfg ts { s with state := .halfOpen, successCount := 0 }).successCount = 0 ∧
    (foldSuccesses cfg ts
        { s with state := .halfOpen, successCount := 0 }).nextAttemptTime = none := by
  have hne : ts ≠ [] := by
    intro h
    rw [h] at hlen
    simp at hlen
    omega
  have hclose := foldSuccesses_closes cfg ts { s with state := .halfOpen, successCount := 0 }
    rfl (by simpa using hlen) hne
  exact ⟨canExecute_open_admits cfg now s T hen hs hn hT hnow,
    fun now' => canExecute_halfOpen_admits cfg now' _ rfl,
    hclose.1, hclose.2.1, hclose.2.2.1, hclose.2.2.2⟩

/-- A breaker configuration used by the concrete witnesses. -/
def testCBConfig : CBConfig :=
  { enabled := true, failureThreshold := 3, successThreshold := 2,
    timeout := 60000, resetTimeout := 30000, errorFilter := none }

/-- A counted network error used by the concrete witnesses. -/
def testCBError : CBError := { code := some "ECONNREFUSED", status := none }

/-- Witness for C2: three counted failures at t = 10, 20, 30 (threshold 3)
open the breaker and `canExecute` at t = 60029 < 30 + 60000 is refused. -/
theorem closed_failures_open_and_reject_witness :
    (foldFailures testCBConfig [(10, testCBError), (20, testCBError), (30, testCBError)]
        CBState.initial).state = .open ∧
    canExecute testCBConfig 60029
        (foldFailures testCBConfig [(10, testCBError), (20, testCBError), (30, testCBError)]
          CBState.initial) =
      (foldFailures testCBConfig [(10, testCBError), (20, testCBError), (30, testCBError)]
          CBState.initial, false) := by
  have h := closed_failures_open_and_reject testCBConfig
    [(10, testCBError), (20, testCBError), (30, testCBError)] CBState.initial
    rfl (by intro p _ ; rfl) rfl rfl rfl (by decide)
  exact ⟨h.1, h.2.2 60029 (by decide)⟩

/-- An Open breaker state used by C3's witness (as left by an open
transition at t = 30 under `testCBConfig`). -/
def testOpenState : CBState :=
  { state := .open, failureCount := 3, successCount := 0,
    lastFailureTime := some 30, lastSuccessTime := none,
    nextAttemptTime := some 60030, totalRequests := 0, totalFailures := 3,
    totalSuccesses := 0, failureHistory := [10, 20, 30],
    resetTimerAt := some 30030 }

/-- Witness for C3: at t = 60030 the probe is admitted into HalfOpen, and
two successes (threshold 2) close the breaker. -/
theorem open_to_halfOpen_to_closed_witness :
    canExecute testCBConfig 60030 testOpenState =
      ({ testOpenState with state := .halfOpen, successCount := 0 }, true) ∧
    (foldSuccesses testCBConfig [70000, 70010]
        { testOpenState with state := .halfOpen, successCount := 0 }).state = .closed := by
  have h := open_to_halfOpen_to_closed testCBConfig testOpenState 60030 60030
    [70000, 70010] rfl rfl rfl (by decide) (by decide) rfl (by decide)
  exact ⟨h.1, h.2.2.1⟩

/-! ### C4 — cache TTL boundary -/

/-- A memory-backend cache configuration with ttl = 100. -/
def c4Config : CacheConfig :=
  { enabled := true, storage := .memory, ttl := 100, maxSize := 10, shouldCache := none }

/-- A cacheable 200 response. -/
def c4Resp : AxResponse :=
  { status := 200, body := "ok", etag := none, lastModified := none }

/-- The entry `cacheSet c4Config 0 "k" c4Resp` creates. -/
def c4Entry : CacheEntry :=
  { key := "k", data := c4Resp, timestamp := 0, ttl := 100,
    etag := none, lastModified := none }

/-- The cache after storing `c4Resp` under `"k"` at t = 0. -/
def c4State : CacheState := cacheSet c4Config 0 "k" c4Resp CacheState.empty

/-- C4 counterexample: an entry stored at T = 0 with ttl = 100 is still
*returned* by a read at exactly T' = T + ttl = 100 (the code expires
strictly: `now - timestamp > ttl`), where the claim requires it to be
absent at exactly T + D; it only becomes absent at 101. -/
theorem cache_boundary_counterexample :
    (cacheGet c4Config 100 "k" c4State).2 = some c4Resp ∧
    (cacheGet c4Config 101 "k" c4State).2 = none := by
  constructor <;> rfl

/-- C4 (amended): a stored entry is returned for every read at
`now ≤ timestamp + ttl` and is absent (and lazily deleted) for every read
at `now > timestamp + ttl` — the boundary read at exactly `timestamp +
ttl` still returns the entry. -/
theorem cacheGet_expiry_boundary (cfg : CacheConfig) (s : CacheState) (key : String)
    (entry : CacheEntry) (now : Int) (hen : cfg.enabled = true)
    (hfind : getEntry cfg key s = some entry) :
    (now ≤ entry.timestamp + entry.ttl → cacheGet cfg now key s = (s, some entry.data)) ∧
    (entry.timestamp + entry.ttl < now →
      cacheGet cfg now key s = (cacheDelete cfg key s, none)) := by
  constructor <;> intro h
  · have hexp : isExpired now entry = false := by
      simp only [isExpired, decide_eq_false_iff_not]
      omega
    simp [cacheGet, hen, hfind, hexp]
  · have hexp : isExpired now entry = true := by
      simp only [isExpired, decide_eq_true_eq]
      omega
    simp [cacheGet, hen, hfind, hexp]

/-- Witness for C4's amended theorem: reads at t = 50 and t = 100 return
the entry stored at t = 0 with ttl = 100. -/
theorem cacheGet_expiry_boundary_witness :
    cacheGet c4Config 100 "k" c4State = (c4State, some c4Entry.data) :=
  (cacheGet_expiry_boundary c4Config c4State "k" c4Entry 100 rfl rfl).1 (by decide)

/-! ### Association-list map lemmas -/

lemma mapFind_mapSet_self [BEq κ] [LawfulBEq κ] (m : List (κ × α)) (k : κ) (v : α) :
    mapFind (mapSet m k v) k = some v := by
  induction m with
  | nil => simp [mapSet, mapFind]
  | cons q m' ih =>
    by_cases h : (q.1 == k) = true
    · simp [mapSet, mapFind, h]
    · simp [mapSet, mapFind, h, ih]

lemma length_mapDelete_of_mem [BEq κ] [LawfulBEq κ] (m : List (κ × α)) (k : κ)
    (h : k ∈ m.map Prod.fst) : (mapDelete m k).length + 1 = m.length := by
  induction m with
  | nil => simp at h
  | cons q m' ih =>
    by_cases hq : (q.1 == k) = true
    · simp [mapDelete, hq]
    · have hk : k ∈ m'.map Prod.fst := by
        rcases List.mem_map.mp h with ⟨p, hp, hpk⟩
        rcases List.mem_cons.mp hp with rfl | hp'
        · exact absurd (by simp [hpk]) hq
        · exact hpk ▸ List.mem_map_of_mem Prod.fst hp'
      simp only [mapDelete, hq, Bool.false_eq_true, if_false, List.length_cons]
      rw [← ih hk]

lemma mem_mapDelete [BEq κ] [LawfulBEq κ] (m : List (κ × α)) (k : κ)
    (hnd : (m.map Prod.fst).Nodup) (q : κ × α) :
    q ∈ mapDelete m k ↔ q ∈ m ∧ q.1 ≠ k := by
  induction m with
  | nil => simp [mapDelete]
  | cons p m' ih =>
    have hnd2 : (p.1 :: m'.map Prod.fst).Nodup := by
      rw [← List.map_cons]
      exact hnd
    have hp1 : p.1 ∉ m'.map Prod.fst := (List.nodup_cons.mp hnd2).1
    have hnd' : (m'.map Prod.fst).Nodup := (List.nodup_cons.mp hnd2).2
    by_cases hp : (p.1 == k) = true
    · have hpk : p.1 = k := by simpa using hp
      simp only [mapDelete, hp, if_true, List.mem_cons]
      constructor
      · intro hq
        refine ⟨Or.inr hq, ?_⟩
        intro hqk
        exact hp1 (by rw [hpk, ← hqk] ; exact List.mem_map_of_mem Prod.fst hq)
      · rintro ⟨(rfl | hq), hqk⟩
        · exact absurd hpk hqk
        · exact hq
    · have hpk : p.1 ≠ k := by simpa using hp
      simp only [mapDelete, hp, Bool.false_eq_true, if_false, List.mem_cons]
      rw [ih hnd']
      constructor
      · rintro (rfl | ⟨hq, hqk⟩)
        · exact ⟨Or.inl rfl, hpk⟩
        · exact ⟨Or.inr hq, hqk⟩
      · rintro ⟨(rfl | hq), hqk⟩
        · exact Or.inl rfl
        · exact Or.inr ⟨hq, hqk⟩

lemma keys_mapDelete_sublist [BEq κ] (m : List (κ × α)) (k : κ) :
    List.Sublist ((mapDelete m k).map Prod.fst) (m.map Prod.fst) := by
  induction m with
  | nil => simp [mapDelete]
  | cons p m' ih =>
    by_cases hp : (p.1 == k) = true
    · simp only [mapDelete, hp, if_true, List.map_cons]
      exact (List.sublist_cons_self _ _)
    · simp only [mapDelete, hp, Bool.false_eq_true, if_false, List.map_cons]
      exact ih.cons₂ p.1

lemma mem_keys_mapDelete [BEq κ] [LawfulBEq κ] (m : List (κ × α)) (k k' : κ)
    (hnd : (m.map Prod.fst).Nodup) :
    k' ∈ (mapDelete m k).map Prod.fst ↔ k' ∈ m.map Prod.fst ∧ k' ≠ k := by
  constructor
  · intro h
    rcases List.mem_map.mp h with ⟨q, hq, rfl⟩
    rcases (mem_mapDelete m k hnd q).mp hq with ⟨hqm, hqk⟩
    exact ⟨List.mem_map_of_mem Prod.fst hqm, hqk⟩
  · rintro ⟨h, hk⟩
    rcases List.mem_map.mp h with ⟨q, hq, rfl⟩
    exact List.mem_map_of_mem Prod.fst ((mem_mapDelete m k hnd q).mpr ⟨hq, hk⟩)

lemma foldl_mapDelete_spec [BEq κ] [LawfulBEq κ] :
    ∀ (ps : List (κ × α)) (m : List (κ × α)),
      (m.map Prod.fst).Nodup → (ps.map Prod.fst).Nodup →
      (∀ p ∈ ps, p.1 ∈ m.map Prod.fst) →
      (ps.foldl (fun m p => mapDelete m p.1) m).length + ps.length = m.length ∧
      ∀ q, q ∈ ps.foldl (fun m p => mapDelete m p.1) m ↔
        (q ∈ m ∧ q.1 ∉ ps.map Prod.fst)
  | [], m, _, _, _ => by simp
  | p :: ps', m, hndm, hndp, hmem => by
    have hp1 : p.1 ∈ m.map Prod.fst := hmem p (List.mem_cons_self p ps')
    have hndp2 : (p.1 :: ps'.map Prod.fst).Nodup := by
      rw [← List.map_cons]
      exact hndp
    have hp1ps : p.1 ∉ ps'.map Prod.fst := (List.nodup_cons.mp hndp2).1
    have hndp' : (ps'.map Prod.fst).Nodup := (List.nodup_cons.mp hndp2).2
    have hndm' : ((mapDelete m p.1).map Prod.fst).Nodup :=
      hndm.sublist (keys_mapDelete_sublist m p.1)
    have hmem' : ∀ p' ∈ ps', p'.1 ∈ (mapDelete m p.1).map Prod.fst := by
      intro p' hp'
      refine (mem_keys_mapDelete m p.1 p'.1 hndm).mpr
        ⟨hmem p' (List.mem_cons_of_mem p hp'), ?_⟩
      intro hEq
      exact hp1ps (hEq ▸ List.mem_map_of_mem Prod.fst hp')
    have ih := foldl_mapDelete_spec ps' (mapDelete m p.1) hndm' hndp' hmem'
    have hfold : (p :: ps').foldl (fun m p => mapDelete m p.1) m =
        ps'.foldl (fun m p => mapDelete m p.1) (mapDelete m p.1) := rfl
    constructor
    · rw [hfold]
      have := length_mapDelete_of_mem m p.1 hp1
      simp only [List.length_cons]
      omega
    · intro q
      rw [hfold, ih.2 q, mem_mapDelete m p.1 hndm q]
      simp only [List.map_cons, List.mem_cons, not_or]
      tauto

/-! ### C9 — storage-agnostic cache logic -/

lemma enforceMaxSize_memory_spec (cfg : CacheConfig) (s : CacheState)
    (hnd : (s.memoryCache.map Prod.fst).Nodup)
    (hgt : s.memoryCache.length > cfg.maxSize) :
    (enforceMaxSize cfg s).memoryCache.length = cfg.maxSize ∧
    (∀ q ∈ (enforceMaxSize cfg s).memoryCache,
      ∀ p ∈ (List.insertionSort tsLE s.memoryCache).take
          (s.memoryCache.length - cfg.maxSize),
        p.2.timestamp ≤ q.2.timestamp) ∧
    (∀ q ∈ (enforceMaxSize cfg s).memoryCache, q ∈ s.memoryCache) := by
  have hperm : List.Perm (List.insertionSort tsLE s.memoryCache) s.memoryCache :=
    List.perm_insertionSort tsLE s.memoryCache
  have hsorted : List.Sorted tsLE (List.insertionSort tsLE s.memoryCache) :=
    List.sorted_insertionSort tsLE s.memoryCache
  have hndSorted : ((List.insertionSort tsLE s.memoryCache).map Prod.fst).Nodup :=
    ((hperm.map Prod.fst).nodup_iff).mpr hnd
  set mem := s.memoryCache with hmem
  set sorted := List.insertionSort tsLE s.memoryCache with hsortedDef
  set k := mem.length - cfg.maxSize with hk
  set toRemove := sorted.take k with htr
  have hndTR : (toRemove.map Prod.fst).Nodup := by
    rw [htr, List.map_take]
    exact hndSorted.sublist (List.take_sublist k (sorted.map Prod.fst))
  have hmemTR : ∀ p ∈ toRemove, p.1 ∈ mem.map Prod.fst := by
    intro p hp
    exact List.mem_map_of_mem Prod.fst
      (hperm.mem_iff.mp (List.mem_of_mem_take hp))
  have hspec := foldl_mapDelete_spec toRemove mem hnd hndTR hmemTR
  have hunfold : (enforceMaxSize cfg s).memoryCache =
      toRemove.foldl (fun m p => mapDelete m p.1) mem := by
    simp only [enforceMaxSize, if_pos hgt]
  have hlenTR : toRemove.length = k := by
    rw [htr, List.length_take, hperm.length_eq]
    omega
  refine ⟨?_, ?_, ?_⟩
  · rw [hunfold]
    omega
  · intro q hq p hp
    have hq' := (hspec.2 q).mp (hunfold ▸ hq)
    have hqSorted : q ∈ sorted := hperm.mem_iff.mpr hq'.1
    have hqDrop : q ∈ sorted.drop k := by
      have := List.take_append_drop k sorted
      rcases List.mem_append.mp (by rw [this] ; exact hqSorted) with hTake | hDrop
      · exact absurd (List.mem_map_of_mem Prod.fst hTake) hq'.2
      · exact hDrop
    exact hsorted.rel_of_mem_take_of_mem_drop hp hqDrop
  · intro q hq
    exact ((hspec.2 q).mp (hunfold ▸ hq)).1

/-- A persistent-backend (localStorage) cache config with maxSize = 1. -/
def c9Config : CacheConfig :=
  { enabled := true, storage := .localStorage, ttl := 1000, maxSize := 1,
    shouldCache := none }

/-- Two entries stored through the localStorage backend. -/
def c9State : CacheState :=
  cacheSet c9Config 1 "b" c4Resp (cacheSet c9Config 0 "a" c4Resp CacheState.empty)

/-- C9 counterexample: with the persistent (localStorage) backend and
`maxSize = 1`, two sets leave *two* stored entries — the oldest is not
evicted, because `enforceMaxSize` inspects only the in-memory map (which
stays empty with this backend).  Eviction is therefore not
backend-agnostic. -/
theorem eviction_backend_counterexample :
    c9State.kvStore.length = 2 ∧ c9Config.maxSize = 1 ∧ c9State.memoryCache = [] := by
  refine ⟨rfl, rfl, rfl⟩

/-- The value a cache read yields, as a function of enabledness, the
backend lookup and the expiry check only. -/
lemma cacheGet_snd (cfg : CacheConfig) (now : Int) (key : String) (s : CacheState) :
    (cacheGet cfg now key s).2 =
      (if !cfg.enabled then none
       else match getEntry cfg key s with
         | none => none
         | some entry => if isExpired now entry then none else some entry.data) := by
  by_cases he : cfg.enabled
  · rcases hopt : getEntry cfg key s with _ | entry
    · simp [cacheGet, he, hopt]
    · by_cases hexp : isExpired now entry
      · simp [cacheGet, he, hopt, hexp]
      · simp [cacheGet, he, hopt, hexp]
  · simp [cacheGet, he]

/-- C9 (amended): the read path (expiry filtering) and the cacheability
predicate are backend-agnostic — the memory and localStorage backends
yield the same read result whenever their stores hold the same entry, and
an uncacheable response is a no-op for every backend — but
`enforceMaxSize` only ever inspects and evicts from the in-memory map:
it never touches the persistent stores, while for the memory backend it
does evict down to `maxSize`, removing only oldest-by-creation-timestamp
entries. -/
theorem cache_logic_per_backend :
    (∀ (cfgM cfgL : CacheConfig) (s1 s2 : CacheState) (key : String) (now : Int),
      cfgM.storage = .memory → cfgL.storage = .localStorage →
      cfgM.enabled = cfgL.enabled →
      mapFind s1.memoryCache key = mapFind s2.kvStore ("cache_" ++ key) →
      (cacheGet cfgM now key s1).2 = (cacheGet cfgL now key s2).2) ∧
    (∀ (cfg : CacheConfig) (now : Int) (key : String) (resp : AxResponse) (s : CacheState),
      shouldCacheFn cfg resp = false → cacheSet cfg now key resp s = s) ∧
    (∀ (cfg : CacheConfig) (s : CacheState),
      (enforceMaxSize cfg s).kvStore = s.kvStore ∧ (enforceMaxSize cfg s).idb = s.idb) ∧
    (∀ (cfg : CacheConfig) (s : CacheState),
      (s.memoryCache.map Prod.fst).Nodup → s.memoryCache.length > cfg.maxSize →
      (enforceMaxSize cfg s).memoryCache.length = cfg.maxSize ∧
      (∀ q ∈ (enforceMaxSize cfg s).memoryCache,
        ∀ p ∈ (List.insertionSort tsLE s.memoryCache).take
            (s.memoryCache.length - cfg.maxSize),
          p.2.timestamp ≤ q.2.timestamp) ∧
      (∀ q ∈ (enforceMaxSize cfg s).memoryCache, q ∈ s.memoryCache)) := by
  refine ⟨?_, ?_, ?_, ?_⟩
  · intro cfgM cfgL s1 s2 key now hm hl hen hfind
    rw [cacheGet_snd, cacheGet_snd]
    have hgM : getEntry cfgM key s1 = mapFind s1.memoryCache key := by
      simp [getEntry, hm]
    have hgL : getEntry cfgL key s2 = mapFind s2.kvStore ("cache_" ++ key) := by
      simp [getEntry, hl]
    rw [hgM, hgL, hfind, hen]
  · intro cfg now key resp s h
    simp [cacheSet, h]
  · intro cfg s
    unfold enforceMaxSize
    split <;> exact ⟨rfl, rfl⟩
  · exact fun cfg s hnd hgt => enforceMaxSize_memory_spec cfg s hnd hgt

/-- A memory-backend config with maxSize = 1 for the C9 witness. -/
def c9MemConfig : CacheConfig :=
  { enabled := true, storage := .memory, ttl := 1000, maxSize := 1,
    shouldCache := none }

/-- An over-full in-memory store for the C9 witness. -/
def c9MemState : CacheState :=
  { memoryCache := [("a", c4Entry), ("b", { c4Entry with key := "b", timestamp := 5 })],
    kvStore := [], idb := [] }

/-- Witness for C9's amended theorem: the memory backend does evict down
to `maxSize = 1`. -/
theorem cache_logic_per_backend_witness :
    (enforceMaxSize c9MemConfig c9MemState).memoryCache.length = c9MemConfig.maxSize :=
  (cache_logic_per_backend.2.2.2 c9MemConfig c9MemState (by decide) (by decide)).1

/-! ### C5 — single-flight refresh -/

/-- An auth configuration with refresh enabled and no `onTokenExpired`
hook (so the expiration fallback is `removeToken`). -/
def testAuthConfig : AuthConfig :=
  { enabled := true, tokenKey := "token", tokenPrefix := "Bearer",
    refreshEnabled := true, hasOnTokenExpired := false, hasOnUnauthorized := false }

/-- A handler at rest holding a stale token. -/
def freshAuthWorld : AuthWorld :=
  { storedToken := some "old", isRefreshing := false, refreshPromise := none,
    refreshCalls := 0, expiredEvents := 0, forbiddenEvents := 0 }

/-- C5 counterexample: of two concurrent 401 triggers, the second does
*not* await the pending refresh — `handleUnauthorized`'s
`!this.isRefreshing` guard makes it skip the refresh branch and run the
token-expiration handling immediately (here: `removeToken`, clearing the
stored token while the refresh is still in flight).  The refresh endpoint
is still invoked only once. -/
theorem concurrent401_counterexample :
    (runConcurrent401s testAuthConfig 2 freshAuthWorld).2 =
      [TriggerPath.refreshStarted 0, TriggerPath.expiredPath] ∧
    (runConcurrent401s testAuthConfig 2 freshAuthWorld).1.storedToken = none ∧
    (runConcurrent401s testAuthConfig 2 freshAuthWorld).1.refreshCalls = 1 := by
  refine ⟨rfl, rfl, rfl⟩

lemma runExpiredHandling_preserves (cfg : AuthConfig) (w : AuthWorld) :
    (runExpiredHandling cfg w).isRefreshing = w.isRefreshing ∧
    (runExpiredHandling cfg w).refreshCalls = w.refreshCalls := by
  unfold runExpiredHandling
  split <;> exact ⟨rfl, rfl⟩

lemma handleUnauthorizedEnter_busy (cfg : AuthConfig) (w : AuthWorld)
    (hb : w.isRefreshing = true) :
    handleUnauthorizedEnter cfg w = (runExpiredHandling cfg w, .expiredPath) := by
  simp [handleUnauthorizedEnter, hb]

lemma runConcurrent401s_busy (cfg : AuthConfig) :
    ∀ (n : Nat) (w : AuthWorld), w.isRefreshing = true →
      (runConcurrent401s cfg n w).1.refreshCalls = w.refreshCalls ∧
      (runConcurrent401s cfg n w).1.isRefreshing = true ∧
      (runConcurrent401s cfg n w).2 = List.replicate n TriggerPath.expiredPath
  | 0, w, _ => ⟨rfl, by assumption, rfl⟩
  | n + 1, w, hb => by
    have hpres := runExpiredHandling_preserves cfg w
    have ih := runConcurrent401s_busy cfg n (runExpiredHandling cfg w)
      (by rw [hpres.1] ; exact hb)
    simp only [runConcurrent401s, handleUnauthorizedEnter_busy cfg w hb]
    exact ⟨by rw [ih.1, hpres.2], ih.2.1, by rw [List.replicate_succ, ih.2.2]⟩

lemma handleUnauthorizedEnter_fresh (cfg : AuthConfig) (w : AuthWorld)
    (hre : cfg.refreshEnabled = true) (hif : w.isRefreshing = false)
    (hrp : w.refreshPromise = none) :
    handleUnauthorizedEnter cfg w =
      ({ w with isRefreshing := true, refreshPromise := some w.refreshCalls,
                refreshCalls := w.refreshCalls + 1 },
        .refreshStarted w.refreshCalls) := by
  simp [handleUnauthorizedEnter, refreshTokenCall, hre, hif, hrp]

/-- C5 (amended): the refresh endpoint is invoked exactly once for `n + 1`
concurrent 401 triggers — the first starts the refresh, every later one
skips the refresh branch and takes the token-expiration path instead of
awaiting the pending refresh; a *direct* `refreshToken()` call while a
refresh is pending is handed the same pending promise without a second
invocation; and the guard flag and pending promise are cleared on every
settle, also when the refresh threw. -/
theorem refresh_singleflight_amended :
    (∀ (cfg : AuthConfig) (n : Nat) (w : AuthWorld),
      cfg.refreshEnabled = true → w.isRefreshing = false → w.refreshPromise = none →
      (runConcurrent401s cfg (n + 1) w).1.refreshCalls = w.refreshCalls + 1 ∧
      (runConcurrent401s cfg (n + 1) w).2 =
        TriggerPath.refreshStarted w.refreshCalls ::
          List.replicate n TriggerPath.expiredPath) ∧
    (∀ (w : AuthWorld) (fid : Nat), w.isRefreshing = true → w.refreshPromise = some fid →
      refreshTokenCall w = (w, .joined fid)) ∧
    (∀ (w : AuthWorld) (outcome : Except Unit (Option String)),
      (refreshSettle w outcome).isRefreshing = false ∧
      (refreshSettle w outcome).refreshPromise = none) := by
  refine ⟨?_, ?_, fun w outcome => ⟨rfl, rfl⟩⟩
  · intro cfg n w hre hif hrp
    have h1 := handleUnauthorizedEnter_fresh cfg w hre hif hrp
    have hbusy := runConcurrent401s_busy cfg n
      { w with isRefreshing := true, refreshPromise := some w.refreshCalls,
               refreshCalls := w.refreshCalls + 1 } rfl
    simp only [runConcurrent401s, h1]
    exact ⟨hbusy.1, by rw [hbusy.2.2]⟩
  · intro w fid hb hp
    simp [refreshTokenCall, hb, hp]

/-- Witness for C5's amended theorem at two concurrent triggers on a
fresh handler. -/
theorem refresh_singleflight_amended_witness :
    (runConcurrent401s testAuthConfig 2 freshAuthWorld).1.refreshCalls =
      freshAuthWorld.refreshCalls + 1 :=
  (refresh_singleflight_amended.1 testAuthConfig 1 freshAuthWorld rfl rfl rfl).1

/-! ### C6 — request deduplication -/

/-- C6: with the manager enabled and deduplication on, a first
`executeRequest` for a fresh dedup key (under the concurrency ceiling)
starts pending request `nextId` and invokes the transport once; a second
`executeRequest` with the same key before settlement is handed the same
pending request's promise (`joined nextId`) without a second transport
invocation and without registering anything new; settling the shared
request resolves exactly that shared future, so both callers observe its
outcome. -/
theorem dedup_joins_without_second_transport (cfg : RMConfig) (c : ReqConfig)
    (s : RMState) (now1 now2 now3 : Int) (hen : cfg.enabled = true)
    (hd : cfg.deduplication = true)
    (hfresh : mapFind s.deduplicationMap (getRequestKey c) = none)
    (hcap : s.pendingRequests.length < cfg.maxConcurrentRequests) :
    (executeRequest cfg now1 c s).2 = .started s.nextId ∧
    (executeRequest cfg now1 c s).1.transportCalls = s.transportCalls + 1 ∧
    (executeRequest cfg now2 c (executeRequest cfg now1 c s).1).2 = .joined s.nextId ∧
    (executeRequest cfg now2 c (executeRequest cfg now1 c s).1).1.transportCalls =
      (executeRequest cfg now1 c s).1.transportCalls ∧
    (executeRequest cfg now2 c (executeRequest cfg now1 c s).1).1.pendingRequests =
      (executeRequest cfg now1 c s).1.pendingRequests ∧
    (handleRequestSuccess now3 s.nextId
        (executeRequest cfg now2 c (executeRequest cfg now1 c s).1).1).2 =
      some s.nextId := by
  have h1 : executeRequest cfg now1 c s =
      ({ s with
          pendingRequests :=
            mapSet s.pendingRequests s.nextId
              { id := s.nextId, config := c, timestamp := now1 },
          deduplicationMap := mapSet s.deduplicationMap (getRequestKey c) s.nextId,
          requestHistory := s.requestHistory ++
            [{ id := s.nextId, startTime := now1, endTime := none, duration := none,
               status := "pending" }],
          stats := { s.stats with
              totalRequests := s.stats.totalRequests + 1,
              activeRequests := s.stats.activeRequests + 1 },
          nextId := s.nextId + 1,
          transportCalls := s.transportCalls + 1 }, .started s.nextId) := by
    simp only [executeRequest, hen, hd, hfresh, Bool.not_true, Bool.false_eq_true,
      if_false, if_true]
    rw [if_neg (by omega)]
  have hfind2 : mapFind (mapSet s.deduplicationMap (getRequestKey c) s.nextId)
      (getRequestKey c) = some s.nextId :=
    mapFind_mapSet_self s.deduplicationMap (getRequestKey c) s.nextId
  rw [h1]
  have h2 : ∀ (s1 : RMState),
      mapFind s1.deduplicationMap (getRequestKey c) = some s.nextId →
      executeRequest cfg now2 c s1 =
        ({ s1 with stats := { s1.stats with
            deduplicatedRequests := s1.stats.deduplicatedRequests + 1 } },
          .joined s.nextId) := by
    intro s1 hf
    simp only [executeRequest, hen, hd, hf, Bool.not_true, Bool.false_eq_true,
      if_false, if_true]
  rw [h2 _ hfind2]
  have hfindp : mapFind (mapSet s.pendingRequests s.nextId
      { id := s.nextId, config := c, timestamp := now1 }) s.nextId =
      some { id := s.nextId, config := c, timestamp := now1 } :=
    mapFind_mapSet_self s.pendingRequests s.nextId _
  refine ⟨rfl, rfl, rfl, rfl, rfl, ?_⟩
  simp only [handleRequestSuccess, hfindp]

/-- A manager configuration with deduplication on. -/
def testRMConfig : RMConfig :=
  { enabled := true, deduplication := true, cancellation := true,
    maxConcurrentRequests := 10, requestTimeout := 30000,
    deduplicationWindow := 5000 }

/-- A GET request descriptor. -/
def testReq : ReqConfig :=
  { method := some "GET", url := some "/users", params := none, data := none,
    headers := [] }

/-- Witness for C6 on a pristine manager: the second identical call joins
pending request 0 and the transport count stays at 1. -/
theorem dedup_joins_without_second_transport_witness :
    (executeRequest testRMConfig 5 testReq
        (executeRequest testRMConfig 0 testReq RMState.initial).1).2 =
      .joined RMState.initial.nextId ∧
    (executeRequest testRMConfig 5 testReq
        (executeRequest testRMConfig 0 testReq RMState.initial).1).1.transportCalls =
      (executeRequest testRMConfig 0 testReq RMState.initial).1.transportCalls := by
  have h := dedup_joins_without_second_transport testRMConfig testReq RMState.initial
    0 5 9 rfl rfl rfl (by decide)
  exact ⟨h.2.2.1, h.2.2.2.1⟩

/-! ### C10 — header attachment never blocks a request -/

/-- C10: `AuthHandler.addAuthHeader` is total and, whenever auth is
disabled, the token lookup threw, or no truthy token is available, it
returns the request config unchanged (no `Authorization` header) — the
request proceeds unauthenticated instead of failing.  Likewise
`TokenManager.addAuthHeader` returns the config unchanged when no valid
token record exists. -/
theorem addAuthHeader_never_blocks :
    (∀ (cfg : AuthConfig) (lookup : Except String (Option String)) (rc : ReqConfig),
      cfg.enabled = false → addAuthHeader cfg lookup rc = rc) ∧
    (∀ (cfg : AuthConfig) (msg : String) (rc : ReqConfig),
      addAuthHeader cfg (.error msg) rc = rc) ∧
    (∀ (cfg : AuthConfig) (rc : ReqConfig), addAuthHeader cfg (.ok none) rc = rc) ∧
    (∀ (cfg : AuthConfig) (rc : ReqConfig), addAuthHeader cfg (.ok (some "")) rc = rc) ∧
    (∀ (now : Int) (tm : TMState) (rc : ReqConfig),
      (getValidToken now tm).2 = none → (tmAddAuthHeader now tm rc).2 = rc) := by
  refine ⟨?_, ?_, ?_, ?_, ?_⟩
  · intro cfg lookup rc h
    simp [addAuthHeader, h]
  · intro cfg msg rc
    by_cases h : cfg.enabled <;> simp [addAuthHeader, h]
  · intro cfg rc
    by_cases h : cfg.enabled <;> simp [addAuthHeader, h, jsTruthyStr]
  · intro cfg rc
    by_cases h : cfg.enabled <;> simp [addAuthHeader, h, jsTruthyStr]
  · intro now tm rc h
    rcases hgv : getValidToken now tm with ⟨tm', t⟩
    rw [hgv] at h
    simp only at h
    subst h
    simp [tmAddAuthHeader, hgv]

/-- A token manager holding no records. -/
def emptyTMState : TMState :=
  { tokens := [], primaryToken := "default", fallbackTokens := [],
    usageCounts := [], errorCounts := [] }

/-- Witness for C10: an empty token manager leaves the request config
untouched. -/
theorem addAuthHeader_never_blocks_witness :
    (tmAddAuthHeader 0 emptyTMState testReq).2 = testReq :=
  addAuthHeader_never_blocks.2.2.2.2 0 emptyTMState testReq rfl

/-! ### C1 — 401 / refresh / replay -/

/-- A transport that serves a 200 exactly when called with the refreshed
token attached, and a 401 otherwise — i.e. a replay after the successful
refresh would succeed. -/
def c1Transport : Nat → Option String → Except RetryErr AxResponse :=
  fun _ tok =>
    if tok == some "newtoken" then .ok c4Resp
    else .error { code := none, status := some 401 }

/-- C1 (code evaluated at the claim's failing input): a request whose
first attempt draws a 401 while refresh is enabled and the refresh
succeeds (yielding `"newtoken"`, which the transport would accept).  The
pipeline persists the refreshed token but invokes the transport exactly
once and rejects with the original 401 — the original request is never
replayed and the caller never sees the replayed success the claim (and
the README's "automatic retry") promise. -/
theorem auth401_refresh_no_replay :
    (serviceExecuteRequest c1Transport testAuthConfig (.ok (some "newtoken"))
        true 3 none freshAuthWorld).2 =
      .error { code := none, status := some 401 } ∧
    (serviceExecuteRequest c1Transport testAuthConfig (.ok (some "newtoken"))
        true 3 none freshAuthWorld).1.2 = 1 ∧
    (serviceExecuteRequest c1Transport testAuthConfig (.ok (some "newtoken"))
        true 3 none freshAuthWorld).1.1.storedToken = some "newtoken" := by
  refine ⟨rfl, rfl, rfl⟩

end AxiosIP
